import Mathlib

/-!
# Verification of the device reachability monitor (`device_monitor.py`)

Shallow embedding of the monitoring service's core: the bulk prober
(`fping_batch`), the fallback single-address prober (`fallback_ping`),
the paginated inventory fetcher (`fetch_all_devices`), the state
reconciler (step 4 of `monitor_cycle_async`), and the update dispatcher
(`update_single`).  Subprocess and HTTP effects are modelled by explicit
outcome parameters; Python `dict`s are modelled by insertion-ordered
association lists; Python floats are modelled by exact decimals (no
float arithmetic is ever performed by the code, values are only parsed
and stored).
-/

namespace DeviceMonitor

/-- `DeviceInfo` dataclass: id, name, primary IP (mask stripped), and the
tri-state last-known reachability read from the `reachable` custom field
(`none` models Python `None`, i.e. "unknown"). -/
structure DeviceInfo where
  id : Nat
  name : String
  ip_address : String
  current_reachable : Option Bool
deriving DecidableEq

/-- A Python float produced by `float()` on a decimal token, represented
exactly: the token `d₁…dₖ.f₁…fₘ` denotes `mantissa / 10 ^ scale` with
`mantissa` the digit string read as an integer and `scale = m`. The
source never computes with latency values — they are parsed, stored and
logged — so the exact decimal is a faithful model of the float. -/
structure Decimal where
  mantissa : Nat
  scale : Nat
deriving DecidableEq

/-- `PingResult` dataclass: address, boolean reachability, optional
average latency in milliseconds. -/
structure PingResult where
  ip_address : String
  is_reachable : Bool
  latency_ms : Option Decimal
deriving DecidableEq

/-! ## Regex models

`fping_batch` classifies each output line with
`re.search(r'(\d+)%', line)` and
`re.search(r'min/avg/max\s*=\s*[\d.]+/([\d.]+)/', line)`;
`fallback_ping` uses `re.search(r'min/avg/max.*?=\s*[\d.]+/([\d.]+)/', stdout)`.
The functions below implement exactly these searches (leftmost match,
greedy character classes, lazy `.*?` that cannot cross a newline). -/

/-- Maximal run of decimal digits at the head of the list, with the rest. -/
def digitRun : List Char → List Char × List Char
  | [] => ([], [])
  | c :: cs =>
    if c.isDigit then
      let p := digitRun cs
      (c :: p.1, p.2)
    else ([], c :: cs)

/-- Maximal run of characters from the class `[\d.]` at the head. -/
def dotDigitRun : List Char → List Char × List Char
  | [] => ([], [])
  | c :: cs =>
    if c.isDigit || c = '.' then
      let p := dotDigitRun cs
      (c :: p.1, p.2)
    else ([], c :: cs)

/-- Value of a digit string, as Python `int` on a `\d+` group. -/
def natOfDigits (ds : List Char) : Nat :=
  ds.foldl (fun n c => n * 10 + (c.toNat - 48)) 0

/-- `re.search(r'(\d+)%', line)`: leftmost maximal digit run that is
immediately followed by `%`; returns the numeric value of the group. -/
def searchLossPct : List Char → Option Nat
  | [] => none
  | c :: cs =>
    if c.isDigit then
      let p := digitRun (c :: cs)
      match p.2 with
      | '%' :: _ => some (natOfDigits p.1)
      | _ => searchLossPct cs
    else searchLossPct cs

/-- Match `\s*=\s*[\d.]+/([\d.]+)/` at the head of the list, returning the
captured (second) token. -/
def parseTripleTail (l : List Char) : Option (List Char) :=
  match (l.dropWhile Char.isWhitespace) with
  | '=' :: r =>
    let r := r.dropWhile Char.isWhitespace
    let p1 := dotDigitRun r
    if p1.1.isEmpty then none
    else
      match p1.2 with
      | '/' :: r2 =>
        let p2 := dotDigitRun r2
        if p2.1.isEmpty then none
        else
          match p2.2 with
          | '/' :: _ => some p2.1
          | _ => none
      | _ => none
  | _ => none

/-- Literal-string match: returns the remainder after the pattern, if the
pattern heads the list. -/
def dropLit : List Char → List Char → Option (List Char)
  | [], l => some l
  | _, [] => none
  | p :: ps, c :: cs => if c = p then dropLit ps cs else none

/-- `re.search(r'min/avg/max\s*=\s*[\d.]+/([\d.]+)/', line)`: leftmost
occurrence of the literal followed by the tail pattern; group 1 is the
middle (avg) token of the `min/avg/max` triple. -/
def searchAvg : List Char → Option (List Char)
  | [] => none
  | c :: cs =>
    match dropLit "min/avg/max".toList (c :: cs) with
    | some rest =>
      match parseTripleTail rest with
      | some tok => some tok
      | none => searchAvg cs
    | none => searchAvg cs

/-- The lazy `.*?=` of the fallback regex: scan (never across a newline,
since `.` does not match `\n`) for an `=` whose tail matches
`\s*[\d.]+/([\d.]+)/`, backtracking to later `=` signs on failure. -/
def lazyToEq : List Char → Option (List Char)
  | [] => none
  | '\n' :: _ => none
  | '=' :: r =>
    match parseTripleTail ('=' :: r) with
    | some tok => some tok
    | none => lazyToEq r
  | _ :: r => lazyToEq r

/-- `re.search(r'min/avg/max.*?=\s*[\d.]+/([\d.]+)/', stdout)` used by
`fallback_ping` (the `ping` summary format has `/mdev` between `max` and
`=` on Linux). -/
def searchPingAvg : List Char → Option (List Char)
  | [] => none
  | c :: cs =>
    match dropLit "min/avg/max".toList (c :: cs) with
    | some rest =>
      match lazyToEq rest with
      | some tok => some tok
      | none => searchPingAvg cs
    | none => searchPingAvg cs

/-- Python `float()` applied to a `[\d.]+` token: succeeds iff the token
has at most one dot and at least one digit; value is the decimal it
denotes. A failing `float()` raises `ValueError`, which the caller's
`except` clause handles. -/
def pyFloat : List Char → Option Decimal
  | tok =>
    if tok.count '.' ≤ 1 then
      if tok.any Char.isDigit then
        let fpart := (tok.dropWhile (fun c => c ≠ '.')).drop 1
        some (Decimal.mk (natOfDigits (tok.filter (fun c => c ≠ '.'))) fpart.length)
      else none
    else none

/-- Python `str.strip()` on a character list. -/
def pyStripL (l : List Char) : List Char :=
  ((l.dropWhile Char.isWhitespace).reverse.dropWhile Char.isWhitespace).reverse

/-- One iteration of the per-line parse loop in `fping_batch`
(lines 122-150): skip empty or colon-free lines; the key is
`line.split(':')[0].strip()`; reachable iff a loss percentage was parsed
and is `< 100`; latency from the avg capture group, and if `float()`
raises on it the whole line is skipped (inner `except`). -/
def parseFpingLine (line : String) : Option (String × PingResult) :=
  let cs := line.toList
  if cs.isEmpty then none
  else if ':' ∈ cs then
    let ip := String.mk (pyStripL (cs.takeWhile (fun c => c ≠ ':')))
    let isReach :=
      match searchLossPct cs with
      | some loss => decide (loss < 100)
      | none => false
    match searchAvg cs with
    | some tok =>
      match pyFloat tok with
      | some v => some (ip, PingResult.mk ip isReach (some v))
      | none => none
    | none => some (ip, PingResult.mk ip isReach none)
  else none

/-! ## Python dict model

`results`, `ip_to_devices` and `all_ping_results` are Python dicts:
insertion-ordered maps where assigning an existing key overwrites in
place and a new key is appended at the end. -/

/-- `results[k] = v` on an insertion-ordered association list. -/
def insertPing (m : List (String × PingResult)) (k : String) (v : PingResult) :
    List (String × PingResult) :=
  match m with
  | [] => [(k, v)]
  | e :: rest => if e.1 = k then (k, v) :: rest else e :: insertPing rest k v

/-- Dict lookup `m.get(k)`. -/
def lookupPing (m : List (String × PingResult)) (k : String) : Option PingResult :=
  match m with
  | [] => none
  | e :: rest => if e.1 = k then some e.2 else lookupPing rest k

/-- `dict.update(other)`: assign every entry of `entries` in order. -/
def updateAll (m entries : List (String × PingResult)) : List (String × PingResult) :=
  entries.foldl (fun acc e => insertPing acc e.1 e.2) m

/-! ## Bulk prober `fping_batch` -/

/-- Outcome of the `subprocess.run` call for one fping batch:
`completed` carries the process stderr (fping prints its quiet-mode
summary there); `timeout` is `subprocess.TimeoutExpired`, raised by
`subprocess.run` itself, so no output is ever observed; `errored` is any
other exception (e.g. `FileNotFoundError`). -/
inductive FpingRun where
  | completed (stderr : String)
  | timeout
  | errored
deriving DecidableEq

/-- Python `str.split('\n')`: split at every newline; consecutive or
trailing newlines yield empty strings, and the empty string yields one
empty line. -/
def splitOnNl : List Char → List (List Char)
  | [] => [[]]
  | c :: cs =>
    match splitOnNl cs with
    | [] => [[]]
    | line :: rest => if c = '\n' then [] :: line :: rest else (c :: line) :: rest

/-- The parse loop of `fping_batch` (lines 120-150):
`output.strip().split('\n')`, each parsed line assigned into `results`. -/
def parseFpingOutput (stderr : String) : List (String × PingResult) :=
  (splitOnNl (pyStripL stderr.toList)).foldl
    (fun acc l =>
      match parseFpingLine (String.mk l) with
      | some e => insertPing acc e.1 e.2
      | none => acc) []

/-- Lines 152-155: every input address missing from `results` is assigned
an unreachable `PingResult` with no latency. -/
def markMissing (ips : List String) (m : List (String × PingResult)) :
    List (String × PingResult) :=
  ips.foldl
    (fun acc ip =>
      if (lookupPing acc ip).isSome then acc
      else insertPing acc ip (PingResult.mk ip false none)) m

/-- Lines 157-164: on `TimeoutExpired` or any other exception, every
address of the batch is assigned an unreachable result (at that point
`results` is empty, the exception having come from `subprocess.run`). -/
def allUnreachable (ips : List String) : List (String × PingResult) :=
  ips.foldl (fun acc ip => insertPing acc ip (PingResult.mk ip false none)) []

/-- `fping_batch(ip_addresses)`: empty input returns `{}` with no
subprocess call; otherwise the result dict is determined by the
subprocess outcome. -/
def fping_batch (ips : List String) (run : FpingRun) : List (String × PingResult) :=
  if ips.isEmpty then []
  else
    match run with
    | FpingRun.completed stderr => markMissing ips (parseFpingOutput stderr)
    | FpingRun.timeout => allUnreachable ips
    | FpingRun.errored => allUnreachable ips

/-! ## Fallback prober `fallback_ping` -/

/-- Outcome of the `subprocess.run(['ping', ...])` call: `completed`
carries the return code and stdout; `failed` is any raised exception
(timeout after 30 s, missing binary, ...), handled by the function's
`except` clause. -/
inductive PingRun where
  | completed (returncode : Int) (stdout : String)
  | failed
deriving DecidableEq

/-- `fallback_ping(ip_address)` (lines 169-186): reachable iff the
process exited 0; latency parsed from stdout only when reachable; if
`float()` raises on the captured token the `except` clause returns an
unreachable result with no latency. Total by construction —
every exception path yields a `PingResult`. -/
def fallback_ping (ip : String) (run : PingRun) : PingResult :=
  match run with
  | PingRun.failed => PingResult.mk ip false none
  | PingRun.completed rc stdout =>
    if rc = 0 then
      match searchPingAvg stdout.toList with
      | some tok =>
        match pyFloat tok with
        | some v => PingResult.mk ip true (some v)
        | none => PingResult.mk ip false none
      | none => PingResult.mk ip true none
    else PingResult.mk ip false none

/-! ## Inventory fetcher `fetch_all_devices` -/

/-- One raw device record of a fetch response page: id, name, the
`primary_ip4` / `primary_ip6` address strings (with mask suffix) when
assigned, and the `reachable` custom field if present. -/
structure RawDevice where
  id : Nat
  name : String
  primary_ip4 : Option String
  primary_ip6 : Option String
  reachable : Option Bool
deriving DecidableEq

/-- Response of one paginated GET at a given offset: `ok` carries the
`results` array of a 200 response; `err` is a non-200 status or a raised
exception — the code handles both identically (log and `break`). -/
inductive FetchResp where
  | ok (results : List RawDevice)
  | err
deriving DecidableEq

/-- Lines 205-216: keep a record iff `primary_ip4 or primary_ip6` is
set; the address is `primary_ip['address'].split('/')[0]` and the
tri-state flag is `custom_fields.get('reachable')`. -/
def parseDevice (d : RawDevice) : Option DeviceInfo :=
  match d.primary_ip4 <|> d.primary_ip6 with
  | some addr =>
    some (DeviceInfo.mk d.id d.name
      (String.mk (addr.toList.takeWhile (fun c => c ≠ '/'))) d.reachable)
  | none => none

/-- Page size `limit = 1000` (line 194). -/
def pageLimit : Nat := 1000

/-- The `while True` pagination loop of `fetch_all_devices`
(lines 196-227), with the server modelled by `resp : offset ↦ response`.
The loop terminates in the source because a finite inventory eventually
yields a short page or an error; `fuel` bounds the iterations so the
recursion is structural, and every theorem about the loop is stated on a
non-zero fuel step. -/
def fetchLoop (resp : Nat → FetchResp) : Nat → Nat → List DeviceInfo → List DeviceInfo
  | 0, _, devices => devices
  | fuel + 1, offset, devices =>
    match resp offset with
    | FetchResp.err => devices
    | FetchResp.ok results =>
      let devices := devices ++ results.filterMap parseDevice
      if results.length < pageLimit then devices
      else fetchLoop resp fuel (offset + pageLimit) devices

/-- `fetch_all_devices`: start at offset 0 with no accumulated records. -/
def fetch_all_devices (resp : Nat → FetchResp) (fuel : Nat) : List DeviceInfo :=
  fetchLoop resp fuel 0 []

/-! ## Update dispatcher `update_single` / `update_device_batch` -/

/-- A JSON value in the `custom_fields` map of a PATCH body. -/
inductive FieldVal where
  | bool (b : Bool)
  | num (q : Decimal)
deriving DecidableEq

/-- One PATCH request: the device id from the URL
`/api/dcim/devices/<id>/` and the `custom_fields` map of the body. -/
structure PatchRequest where
  device_id : Nat
  custom_fields : List (String × FieldVal)
deriving DecidableEq

/-- The write issued by `update_single` (lines 240-251): one PATCH for
the single device, whose body is
`{'custom_fields': {'reachable': ping_result.is_reachable}}` —
the latency is used only in the log line, never in the payload. -/
def update_single_request (device : DeviceInfo) (pr : PingResult) : PatchRequest :=
  PatchRequest.mk device.id [("reachable", FieldVal.bool pr.is_reachable)]

/-- `update_device_batch` issues exactly one `update_single` write per
pending update (line 265). -/
def update_batch_requests (updates : List (DeviceInfo × PingResult)) : List PatchRequest :=
  updates.map (fun u => update_single_request u.1 u.2)

/-! ## Grouping and reconciliation (`monitor_cycle_async`) -/

/-- One iteration of the grouping loop (lines 291-294): append the
device to the bucket of its own address, creating the bucket if absent
(Python dict: the first matching key's bucket is extended in place, a
new key is appended at the end). -/
def addToGroup (m : List (String × List DeviceInfo)) (d : DeviceInfo) :
    List (String × List DeviceInfo) :=
  match m with
  | [] => [(d.ip_address, [d])]
  | e :: rest =>
    if e.1 = d.ip_address then (e.1, e.2 ++ [d]) :: rest
    else e :: addToGroup rest d

/-- `ip_to_devices`: group the fetched devices by IP (lines 290-294). -/
def groupByIp (devices : List DeviceInfo) : List (String × List DeviceInfo) :=
  devices.foldl addToGroup []

/-- `ip_to_devices.get(ip, [])` (line 331). -/
def lookupGroup (m : List (String × List DeviceInfo)) (ip : String) : List DeviceInfo :=
  match m with
  | [] => []
  | e :: rest => if e.1 = ip then e.2 else lookupGroup rest ip

/-- `unique_ips = list(ip_to_devices.keys())` (line 296). -/
def unique_ips (devices : List DeviceInfo) : List String :=
  (groupByIp devices).map Prod.fst

/-- The reconciliation loop (lines 327-337): for every entry of
`all_ping_results` and every device grouped under that address, emit the
pair iff `device.current_reachable != ping_result.is_reachable` — a
Python `!=` between `Optional[bool]` and `bool`, so a `None` (unknown)
state always differs. -/
def reconcile (pingResults : List (String × PingResult))
    (groups : List (String × List DeviceInfo)) : List (DeviceInfo × PingResult) :=
  pingResults.flatMap (fun e =>
    ((lookupGroup groups e.1).filter
      (fun d => d.current_reachable != some e.2.is_reachable)).map (fun d => (d, e.2)))

/-- Steps 2 and 4 of `monitor_cycle_async` composed: group the fetched
devices by address and reconcile them against the probe results. -/
def monitor_reconcile (devices : List DeviceInfo)
    (pingResults : List (String × PingResult)) : List (DeviceInfo × PingResult) :=
  reconcile pingResults (groupByIp devices)

/-! ## Probe phase of `monitor_cycle_async` (lines 299-318) -/

/-- `BATCH_SIZE` default (line 49). -/
def BATCH_SIZE : Nat := 500

/-- Slices `l[0:500], l[500:1000], ...` of
`for i in range(0, len(unique_ips), BATCH_SIZE)` (line 305); the fuel is
the list length, which the recursion never exhausts since every step
drops at least one element. -/
def batchesOfAux : Nat → List String → List (List String)
  | 0, _ => []
  | _, [] => []
  | fuel + 1, l => l.take BATCH_SIZE :: batchesOfAux fuel (l.drop BATCH_SIZE)

/-- The batch slicing of the primary probe path. -/
def batchesOf (l : List String) : List (List String) := batchesOfAux l.length l

/-- Sequential fping batches (lines 305-308): each batch result dict is
merged into `all_ping_results` via `dict.update`; `runs i` is the
subprocess outcome of the `i`-th batch. -/
def fpingBatches (runs : Nat → FpingRun) :
    Nat → List (List String) → List (String × PingResult) → List (String × PingResult)
  | _, [], acc => acc
  | i, b :: bs, acc => fpingBatches runs (i + 1) bs (updateAll acc (fping_batch b (runs i)))

/-- Step 3 of `monitor_cycle_async`: the primary path slices the unique
addresses into batches and runs `fping_batch` on each; the fallback path
(only when `use_fping` is false) maps `fallback_ping` over the addresses
with a bounded worker pool and keys each result by its address. -/
def probe_phase (use_fping : Bool) (ips : List String) (runs : Nat → FpingRun)
    (pingRuns : String → PingRun) : List (String × PingResult) :=
  if use_fping then fpingBatches runs 0 (batchesOf ips) []
  else ips.foldl (fun acc ip => insertPing acc ip (fallback_ping ip (pingRuns ip))) []

/-! ## Effect of a successful dispatch on the next fetch -/

/-- Models a successful dispatch of `updates` followed by the next
cycle's fetch: each updated device's stored `reachable` custom field now
equals the probed boolean written by `update_single_request` (the PATCH
body sets exactly that field), every other field and every other device
unchanged. -/
def apply_updates (devices : List DeviceInfo) (updates : List (DeviceInfo × PingResult)) :
    List DeviceInfo :=
  devices.map (fun d =>
    match updates.find? (fun u => u.1.id == d.id) with
    | some u => DeviceInfo.mk d.id d.name d.ip_address (some u.2.is_reachable)
    | none => d)

/-! ## Concrete instances used by witnesses and counterexamples -/

/-- Scenario device X: last-known reachable. -/
def devX : DeviceInfo := DeviceInfo.mk 1 "device-x" "10.0.0.1" (some true)

/-- Scenario device Y: last-known unknown. -/
def devY : DeviceInfo := DeviceInfo.mk 2 "device-y" "10.0.0.2" none

/-- Probe result: `10.0.0.1` reachable at 1.2 ms. -/
def prUp : PingResult := PingResult.mk "10.0.0.1" true (some (Decimal.mk 12 1))

/-- Probe result: `10.0.0.2` unreachable. -/
def prDown : PingResult := PingResult.mk "10.0.0.2" false none

/-- Scenario probe dict. -/
def scenarioPings : List (String × PingResult) := [("10.0.0.1", prUp), ("10.0.0.2", prDown)]

/-- A device with unknown last state at a third address. -/
def devU : DeviceInfo := DeviceInfo.mk 3 "device-u" "10.0.0.3" none

/-- A second device sharing device Y's address (fan-out case). -/
def devZ : DeviceInfo := DeviceInfo.mk 4 "device-z" "10.0.0.2" (some true)

/-- An unreachable probe result for that third address. -/
def prU : PingResult := PingResult.mk "10.0.0.3" false none

/-- A full page of raw records (length exactly `pageLimit`). -/
def rawFull : RawDevice := RawDevice.mk 10 "bulk" (some "10.1.0.1/24") none (some true)

/-- The single record of the final short page. -/
def rawLast : RawDevice := RawDevice.mk 11 "last" (some "10.1.0.2/24") none none

/-- A paginated server: a full page at offset 0, a short page at offset
`pageLimit`, an error everywhere else. -/
def wResp : Nat → FetchResp := fun offset =>
  if offset = 0 then FetchResp.ok (List.replicate pageLimit rawFull)
  else if offset = pageLimit then FetchResp.ok [rawLast] else FetchResp.err

/-- A previously accumulated record. -/
def devAcc : DeviceInfo := DeviceInfo.mk 99 "acc" "10.9.9.9" none

/-- An fping summary line: 0% loss, avg latency 0.15 ms. -/
def lineUp : String := "10.0.0.1 : xmt/rcv/%loss = 3/3/0%, min/avg/max = 0.12/0.15/0.18"

/-- fping stderr containing summary lines for two of three addresses. -/
def stderrTwo : String :=
  "10.0.0.1 : xmt/rcv/%loss = 3/3/0%, min/avg/max = 0.12/0.15/0.18\n10.0.0.2 : xmt/rcv/%loss = 3/0/100%"

/-- A Linux `ping` stdout summary with average rtt 0.067 ms. -/
def pingOut : String := "rtt min/avg/max/mdev = 0.045/0.067/0.089/0.012 ms"

/-! ## Dictionary lemmas -/

lemma lookupPing_insertPing (m : List (String × PingResult)) (k : String) (v : PingResult)
    (k' : String) :
    lookupPing (insertPing m k v) k' = if k' = k then some v else lookupPing m k' := by
  induction m with
  | nil =>
    simp only [insertPing, lookupPing]
    by_cases h : k = k'
    · simp [h]
    · simp [h, Ne.symm h]
  | cons e rest ih =>
    simp only [insertPing]
    by_cases h1 : e.1 = k
    · simp only [if_pos h1, lookupPing]
      by_cases h2 : k = k'
      · simp [h2]
      · simp [h1, h2, Ne.symm h2]
    · simp only [if_neg h1, lookupPing, ih]
      by_cases h2 : e.1 = k'
      · have hk : ¬k' = k := fun hh => h1 (h2.trans hh)
        simp [h2, hk]
      · simp [h2]

lemma lookupPing_unreachable_foldl :
    ∀ (ips : List String) (m : List (String × PingResult)) (ip : String),
      lookupPing (ips.foldl (fun acc i => insertPing acc i (PingResult.mk i false none)) m) ip =
        if ip ∈ ips then some (PingResult.mk ip false none) else lookupPing m ip := by
  intro ips
  induction ips with
  | nil => intro m ip; simp
  | cons i rest ih =>
    intro m ip
    simp only [List.foldl_cons]
    rw [ih]
    by_cases h1 : ip ∈ rest
    · simp [h1]
    · rw [if_neg h1, lookupPing_insertPing]
      by_cases h2 : ip = i
      · simp [h2]
      · simp [h1, h2]

lemma lookupPing_allUnreachable (ips : List String) (ip : String) :
    lookupPing (allUnreachable ips) ip =
      if ip ∈ ips then some (PingResult.mk ip false none) else none := by
  have h := lookupPing_unreachable_foldl ips [] ip
  simpa [allUnreachable, lookupPing] using h

lemma lookupPing_markMissing :
    ∀ (ips : List String) (m : List (String × PingResult)) (ip : String),
      lookupPing (markMissing ips m) ip =
        if (lookupPing m ip).isSome then lookupPing m ip
        else if ip ∈ ips then some (PingResult.mk ip false none) else none := by
  intro ips
  induction ips with
  | nil =>
    intro m ip
    simp only [markMissing, List.foldl_nil, List.not_mem_nil, if_false]
    cases h : lookupPing m ip <;> simp [h]
  | cons i rest ih =>
    intro m ip
    have step : markMissing (i :: rest) m =
        markMissing rest
          (if (lookupPing m i).isSome then m
           else insertPing m i (PingResult.mk i false none)) := by
      simp [markMissing, List.foldl_cons]
    rw [step, ih]
    by_cases hmi : (lookupPing m i).isSome
    · rw [if_pos hmi]
      by_cases hp : (lookupPing m ip).isSome
      · simp [hp]
      · rw [if_neg hp, if_neg hp]
        by_cases hie : ip = i
        · exact absurd (hie ▸ hmi) hp
        · simp [hie]
    · rw [if_neg hmi, lookupPing_insertPing]
      by_cases hie : ip = i
      · subst hie
        have hp : ¬(lookupPing m ip).isSome = true := hmi
        simp [hp]
      · rw [if_neg hie]
        by_cases hp : (lookupPing m ip).isSome
        · simp [hp]
        · simp [hp, hie]

/-! ## Grouping lemmas -/

lemma lookupGroup_addToGroup (m : List (String × List DeviceInfo)) (d : DeviceInfo)
    (ip : String) :
    lookupGroup (addToGroup m d) ip =
      lookupGroup m ip ++ (if d.ip_address = ip then [d] else []) := by
  induction m with
  | nil =>
    simp only [addToGroup, lookupGroup]
    by_cases h : d.ip_address = ip
    · simp [h]
    · simp [h]
  | cons e rest ih =>
    simp only [addToGroup]
    by_cases h1 : e.1 = d.ip_address
    · simp only [if_pos h1, lookupGroup]
      by_cases h2 : e.1 = ip
      · rw [if_pos h2, if_pos h2, if_pos (h1 ▸ h2)]
      · rw [if_neg h2, if_neg h2, if_neg (fun hh => h2 (h1.trans hh)), List.append_nil]
    · simp only [if_neg h1, lookupGroup, ih]
      by_cases h2 : e.1 = ip
      · rw [if_pos h2, if_pos h2, if_neg (fun hh => h1 (h2.trans hh.symm)), List.append_nil]
      · rw [if_neg h2, if_neg h2]

lemma lookupGroup_foldl :
    ∀ (devices : List DeviceInfo) (m : List (String × List DeviceInfo)) (ip : String),
      lookupGroup (devices.foldl addToGroup m) ip =
        lookupGroup m ip ++ devices.filter (fun d => d.ip_address == ip) := by
  intro devices
  induction devices with
  | nil => intro m ip; simp
  | cons d rest ih =>
    intro m ip
    simp only [List.foldl_cons]
    rw [ih, lookupGroup_addToGroup]
    by_cases h : d.ip_address = ip
    · simp [h, List.filter_cons, List.append_assoc]
    · simp [h, List.filter_cons]

/-- `ip_to_devices.get(ip, [])` holds exactly the fetched devices whose
address is `ip`, in fetch order. -/
lemma lookupGroup_groupByIp (devices : List DeviceInfo) (ip : String) :
    lookupGroup (groupByIp devices) ip =
      devices.filter (fun d => d.ip_address == ip) := by
  have h := lookupGroup_foldl devices [] ip
  simpa [groupByIp, lookupGroup] using h

/-! ## Reconciler lemmas -/

/-- Membership characterisation of the reconciliation loop: a pair is
emitted iff the device was fetched, its address has this probe result in
the dict, and the (tri-state) last-known state differs from the probed
boolean. -/
lemma mem_monitor_reconcile (devices : List DeviceInfo)
    (pingResults : List (String × PingResult)) (d : DeviceInfo) (pr : PingResult) :
    (d, pr) ∈ monitor_reconcile devices pingResults ↔
      (d ∈ devices ∧ (d.ip_address, pr) ∈ pingResults ∧
        d.current_reachable ≠ some pr.is_reachable) := by
  simp only [monitor_reconcile, reconcile, List.mem_flatMap, List.mem_map, List.mem_filter,
    lookupGroup_groupByIp, bne_iff_ne, ne_eq, beq_iff_eq, Prod.mk.injEq]
  constructor
  · rintro ⟨e, he, d', ⟨⟨hd, hip⟩, hcond⟩, hde, hpre⟩
    subst hde hpre
    refine ⟨hd, ?_, hcond⟩
    rw [hip]
    simpa using he
  · rintro ⟨hd, hmem, hcond⟩
    exact ⟨(d.ip_address, pr), hmem, d, ⟨⟨hd, rfl⟩, hcond⟩, rfl, rfl⟩

/-- The devices of the emitted updates, as a flat map over the probe
dict of filtered sublists of the fetched devices. -/
lemma map_fst_monitor_reconcile (devices : List DeviceInfo)
    (pingResults : List (String × PingResult)) :
    (monitor_reconcile devices pingResults).map Prod.fst =
      pingResults.flatMap (fun e =>
        (devices.filter (fun d => d.ip_address == e.1)).filter
          (fun d => d.current_reachable != some e.2.is_reachable)) := by
  simp [monitor_reconcile, reconcile, List.map_flatMap, List.map_map, lookupGroup_groupByIp,
    Function.comp_def]

/-! ## Claim theorems -/

/-- C1 (amended): for every PendingUpdate it dispatches, the Update
Dispatcher issues exactly one partial-attribute write for that single
device, and its body sets only the reachability flag to the probed
boolean — the latency value is never included in the write body (it is
only logged). -/
theorem update_requests_set_only_reachable :
    ∀ (updates : List (DeviceInfo × PingResult)),
      (update_batch_requests updates).length = updates.length ∧
      ∀ req ∈ update_batch_requests updates, ∃ u ∈ updates,
        req.device_id = u.1.id ∧
        req.custom_fields = [("reachable", FieldVal.bool u.2.is_reachable)] := by
  intro updates
  refine ⟨by simp [update_batch_requests], ?_⟩
  intro req hreq
  rcases List.mem_map.mp hreq with ⟨u, hu, rfl⟩
  exact ⟨u, hu, rfl, rfl⟩

/-- C1 witness: the theorem applied to a one-element update list. -/
theorem update_requests_set_only_reachable_witness :
    update_single_request devX prUp ∈ update_batch_requests [(devX, prUp)] ∧
    ∃ u ∈ [(devX, prUp)],
      (update_single_request devX prUp).device_id = u.1.id ∧
      (update_single_request devX prUp).custom_fields =
        [("reachable", FieldVal.bool u.2.is_reachable)] :=
  ⟨by decide, (update_requests_set_only_reachable [(devX, prUp)]).2 _ (by decide)⟩

/-- C1 counterexample: a probe result carrying a latency (1.2 ms) whose
dispatched PATCH body nevertheless contains only the reachability flag —
contrary to the claim, the latency value is not set. -/
theorem update_single_omits_latency :
    prUp.latency_ms = some (Decimal.mk 12 1) ∧
    update_single_request devX prUp =
      PatchRequest.mk 1 [("reachable", FieldVal.bool true)] :=
  ⟨rfl, rfl⟩

/-- C3: if the bulk-probe subprocess times out, every address of the
batch is classified unreachable with no latency (fail-closed; the
timeout is raised by `subprocess.run` itself, so no partial output is
ever consulted). -/
theorem fping_timeout_fail_closed :
    ∀ (ips : List String) (ip : String), ip ∈ ips →
      lookupPing (fping_batch ips FpingRun.timeout) ip =
        some (PingResult.mk ip false none) := by
  intro ips ip hmem
  have hne : ips ≠ [] := List.ne_nil_of_mem hmem
  simp [fping_batch, List.isEmpty_iff, hne, lookupPing_allUnreachable, hmem]

/-- C3 witness: a two-address batch that timed out. -/
theorem fping_timeout_fail_closed_witness :
    ("10.0.0.1" : String) ∈ ["10.0.0.1", "10.0.0.2"] ∧
    lookupPing (fping_batch ["10.0.0.1", "10.0.0.2"] FpingRun.timeout) "10.0.0.1" =
      some (PingResult.mk "10.0.0.1" false none) :=
  ⟨by decide, fping_timeout_fail_closed ["10.0.0.1", "10.0.0.2"] "10.0.0.1" (by decide)⟩

/-- C7 (amended): when the primary bulk-probe path raises an unexpected
error (anything other than the subprocess timeout), every address of
that batch is classified unreachable with no latency, exactly as on a
timeout — the single-address fallback prober is not consulted; it is
used only when the bulk tool was found unavailable at process start. -/
theorem fping_error_fail_closed :
    ∀ (ips : List String) (ip : String), ip ∈ ips →
      lookupPing (fping_batch ips FpingRun.errored) ip =
        some (PingResult.mk ip false none) := by
  intro ips ip hmem
  have hne : ips ≠ [] := List.ne_nil_of_mem hmem
  simp [fping_batch, List.isEmpty_iff, hne, lookupPing_allUnreachable, hmem]

/-- C7 witness: a one-address batch whose fping invocation errored. -/
theorem fping_error_fail_closed_witness :
    ("10.0.0.9" : String) ∈ ["10.0.0.9"] ∧
    lookupPing (fping_batch ["10.0.0.9"] FpingRun.errored) "10.0.0.9" =
      some (PingResult.mk "10.0.0.9" false none) :=
  ⟨by decide, fping_error_fail_closed ["10.0.0.9"] "10.0.0.9" (by decide)⟩

/-- C7 counterexample: with the primary path erroring unexpectedly, the
cycle's probe phase classifies the address unreachable even though the
single-address fallback prober would have reported it reachable at
0.067 ms — the prober does not fall back, contrary to the claim. -/
theorem fping_error_no_fallback :
    probe_phase true ["10.0.0.9"] (fun _ => FpingRun.errored)
        (fun _ => PingRun.completed 0 pingOut) =
      [("10.0.0.9", PingResult.mk "10.0.0.9" false none)] ∧
    fallback_ping "10.0.0.9" (PingRun.completed 0 pingOut) =
      PingResult.mk "10.0.0.9" true (some (Decimal.mk 67 3)) :=
  ⟨by decide, by decide⟩

/-- C10: the fallback single-address prober is total — every subprocess
outcome yields a `PingResult` for the probed address; any raised
exception gives unreachable with no latency; and a latency is only ever
populated when the ping process exited successfully (status 0), in which
case the result is also marked reachable. -/
theorem fallback_ping_total :
    ∀ (ip : String) (run : PingRun),
      (fallback_ping ip run).ip_address = ip ∧
      fallback_ping ip PingRun.failed = PingResult.mk ip false none ∧
      ∀ v, (fallback_ping ip run).latency_ms = some v →
        (∃ stdout, run = PingRun.completed 0 stdout) ∧
        (fallback_ping ip run).is_reachable = true := by
  intro ip run
  refine ⟨?_, rfl, ?_⟩
  · cases run with
    | failed => rfl
    | completed rc stdout =>
      by_cases h : rc = 0
      · rcases hs : searchPingAvg stdout.data with _ | tok
        · simp [fallback_ping, h, hs]
        · rcases hf : pyFloat tok with _ | w <;> simp [fallback_ping, h, hs, hf]
      · simp [fallback_ping, h]
  · intro v hv
    cases run with
    | failed => simp [fallback_ping] at hv
    | completed rc stdout =>
      by_cases h : rc = 0
      · refine ⟨⟨stdout, by rw [h]⟩, ?_⟩
        rcases hs : searchPingAvg stdout.data with _ | tok
        · simp [fallback_ping, h, hs] at hv
        · rcases hf : pyFloat tok with _ | w
          · simp [fallback_ping, h, hs, hf] at hv
          · simp [fallback_ping, h, hs, hf]
      · simp [fallback_ping, h] at hv

/-- C10 witness: a successful ping run whose stdout carries an average
round-trip of 0.067 ms. -/
theorem fallback_ping_total_witness :
    (fallback_ping "1.2.3.4" (PingRun.completed 0 pingOut)).latency_ms =
      some (Decimal.mk 67 3) ∧
    ((∃ stdout, PingRun.completed 0 pingOut = PingRun.completed 0 stdout) ∧
      (fallback_ping "1.2.3.4" (PingRun.completed 0 pingOut)).is_reachable = true) :=
  ⟨by decide,
    (fallback_ping_total "1.2.3.4" (PingRun.completed 0 pingOut)).2.2
      (Decimal.mk 67 3) (by decide)⟩

/-- C4: every address submitted to the bulk prober whose address is
absent from the tool's parsed summary output still gets an entry in the
batch result, classified unreachable with no latency
("silence is failure"). -/
theorem fping_silence_unreachable :
    ∀ (ips : List String) (stderr : String) (ip : String), ip ∈ ips →
      lookupPing (parseFpingOutput stderr) ip = none →
      lookupPing (fping_batch ips (FpingRun.completed stderr)) ip =
        some (PingResult.mk ip false none) := by
  intro ips stderr ip hmem habsent
  have hne : ips ≠ [] := List.ne_nil_of_mem hmem
  simp [fping_batch, List.isEmpty_iff, hne, lookupPing_markMissing, habsent, hmem]

/-- C4 witness: a three-address batch whose output mentions only two
addresses; the silent third is classified unreachable. -/
theorem fping_silence_unreachable_witness :
    ("10.0.0.3" : String) ∈ ["10.0.0.1", "10.0.0.2", "10.0.0.3"] ∧
    lookupPing (parseFpingOutput stderrTwo) "10.0.0.3" = none ∧
    lookupPing
        (fping_batch ["10.0.0.1", "10.0.0.2", "10.0.0.3"] (FpingRun.completed stderrTwo))
        "10.0.0.3" =
      some (PingResult.mk "10.0.0.3" false none) :=
  ⟨by decide, by decide,
    fping_silence_unreachable ["10.0.0.1", "10.0.0.2", "10.0.0.3"] stderrTwo "10.0.0.3"
      (by decide) (by decide)⟩

/-- C6: a parsed per-address summary line is classified reachable iff
the parsed loss percentage is strictly below 100, and its latency is the
captured middle (avg) value of the `min/avg/max` triple when that triple
is present in the line, and absent otherwise. -/
theorem fping_line_decision :
    ∀ (line : String) (ip : String) (pr : PingResult),
      parseFpingLine line = some (ip, pr) →
      ((pr.is_reachable = true ↔
          ∃ loss, searchLossPct line.toList = some loss ∧ loss < 100) ∧
        (∀ tok, searchAvg line.toList = some tok → pr.latency_ms = pyFloat tok) ∧
        (searchAvg line.toList = none → pr.latency_ms = none)) := by
  intro line ip pr h
  simp only [String.toList]
  simp [parseFpingLine] at h
  obtain ⟨-, -, h⟩ := h
  rcases ha : searchAvg line.data with _ | tok
  · rw [ha] at h
    simp at h
    obtain ⟨hip, hpr⟩ := h
    subst hpr
    refine ⟨?_, ?_, fun _ => rfl⟩
    · rcases hl : searchLossPct line.data with _ | loss <;> simp [hl]
    · intro tok htok
      exact absurd htok (by simp)
  · rw [ha] at h
    simp at h
    rcases hf : pyFloat tok with _ | v
    · rw [hf] at h
      simp at h
    · rw [hf] at h
      simp at h
      obtain ⟨hip, hpr⟩ := h
      subst hpr
      refine ⟨?_, ?_, ?_⟩
      · rcases hl : searchLossPct line.data with _ | loss <;> simp [hl]
      · intro tok' htok'
        rw [Option.some.injEq] at htok'
        subst htok'
        simp [hf]
      · intro hnone
        exact absurd hnone (by simp)

/-- C6 witness: a full fping summary line with 0% loss and triple
`0.12/0.15/0.18` — classified reachable with latency 0.15. -/
theorem fping_line_decision_witness :
    parseFpingLine lineUp =
      some ("10.0.0.1", PingResult.mk "10.0.0.1" true (some (Decimal.mk 15 2))) ∧
    (((PingResult.mk "10.0.0.1" true (some (Decimal.mk 15 2))).is_reachable = true ↔
        ∃ loss, searchLossPct lineUp.toList = some loss ∧ loss < 100) ∧
      (∀ tok, searchAvg lineUp.toList = some tok →
        (PingResult.mk "10.0.0.1" true (some (Decimal.mk 15 2))).latency_ms = pyFloat tok) ∧
      (searchAvg lineUp.toList = none →
        (PingResult.mk "10.0.0.1" true (some (Decimal.mk 15 2))).latency_ms = none)) :=
  ⟨by decide, fping_line_decision lineUp "10.0.0.1" _ (by decide)⟩

/-- C2: the reconciler emits a PendingUpdate for a device if and only if
the device was fetched, its address has this probe result, and the
tri-state last-known reachability differs from the probed boolean (an
unknown last state always differs — in particular unknown with an
unreachable probe yields an update); a device whose address produced no
probe result is simply never emitted. -/
theorem reconcile_change_iff :
    ∀ (devices : List DeviceInfo) (pingResults : List (String × PingResult))
      (d : DeviceInfo) (pr : PingResult),
      ((d, pr) ∈ monitor_reconcile devices pingResults ↔
        (d ∈ devices ∧ (d.ip_address, pr) ∈ pingResults ∧
          d.current_reachable ≠ some pr.is_reachable)) ∧
      (d.current_reachable = none → d ∈ devices → (d.ip_address, pr) ∈ pingResults →
        (d, pr) ∈ monitor_reconcile devices pingResults) := by
  intro devices prs d pr
  refine ⟨mem_monitor_reconcile devices prs d pr, ?_⟩
  intro hu hd hm
  exact (mem_monitor_reconcile devices prs d pr).mpr ⟨hd, hm, by simp [hu]⟩

/-- C2 witness (Scenario A): X true with a reachable probe yields no
update; Y unknown with an unreachable probe yields exactly one update. -/
theorem reconcile_change_iff_witness :
    devY.current_reachable = none ∧ devY ∈ [devX, devY] ∧
    ("10.0.0.2", prDown) ∈ scenarioPings ∧
    (devY, prDown) ∈ monitor_reconcile [devX, devY] scenarioPings ∧
    monitor_reconcile [devX, devY] scenarioPings = [(devY, prDown)] :=
  ⟨rfl, by decide, by decide,
    (reconcile_change_iff [devX, devY] scenarioPings devY prDown).2 rfl (by decide) (by decide),
    by decide⟩

/-- C8: across one cycle no fetched device appears more than once in the
reconciler's output — with distinct fetched records and (dict-unique)
probe keys, the emitted devices are pairwise distinct, and every emitted
device is one of the fetched records (so N records sharing one address
yield at most N updates, each for a distinct device). -/
theorem reconcile_no_duplicates :
    ∀ (devices : List DeviceInfo) (pingResults : List (String × PingResult)),
      devices.Nodup → (pingResults.map Prod.fst).Nodup →
      ((monitor_reconcile devices pingResults).map Prod.fst).Nodup ∧
      ∀ p ∈ monitor_reconcile devices pingResults, p.1 ∈ devices := by
  intro devices prs hdev hkeys
  constructor
  · rw [map_fst_monitor_reconcile, List.nodup_flatMap]
    constructor
    · intro e he
      exact List.Nodup.filter _ (List.Nodup.filter _ hdev)
    · have hp : prs.Pairwise (fun a b => a.1 ≠ b.1) := List.pairwise_map.mp hkeys
      refine hp.imp ?_
      intro a b hne x hxa hxb
      have h1 := (List.mem_filter.mp (List.mem_filter.mp hxa).1).2
      have h2 := (List.mem_filter.mp (List.mem_filter.mp hxb).1).2
      exact hne ((beq_iff_eq.mp h1).symm.trans (beq_iff_eq.mp h2))
  · rintro ⟨d, pr⟩ hp
    exact ((mem_monitor_reconcile devices prs d pr).mp hp).1

/-- C8 witness: two distinct devices sharing one address, one probe
result — two updates, each for a distinct device. -/
theorem reconcile_no_duplicates_witness :
    ([devY, devZ] : List DeviceInfo).Nodup ∧ (scenarioPings.map Prod.fst).Nodup ∧
    (((monitor_reconcile [devY, devZ] scenarioPings).map Prod.fst).Nodup ∧
      ∀ p ∈ monitor_reconcile [devY, devZ] scenarioPings, p.1 ∈ [devY, devZ]) :=
  ⟨by decide, by decide,
    reconcile_no_duplicates [devY, devZ] scenarioPings (by decide) (by decide)⟩

/-- C9 counterexample: reconciliation is a pure function of the fetch
and probe results, so with identical fetch results and identical probe
results the second reconciliation equals the first — here a device with
unknown last state and an unreachable probe yields one PendingUpdate
each time, not zero. -/
theorem reconcile_identical_inputs_nonzero :
    monitor_reconcile [devU] [("10.0.0.3", prU)] =
      monitor_reconcile [devU] [("10.0.0.3", prU)] ∧
    monitor_reconcile [devU] [("10.0.0.3", prU)] = [(devU, prU)] ∧
    [(devU, prU)] ≠ ([] : List (DeviceInfo × PingResult)) :=
  ⟨rfl, by decide, by decide⟩

/-- C9 (amended): if the second cycle's fetch reflects the successful
application of the first reconciliation's updates — each updated
device's stored reachability now equals the probed boolean written by
the dispatcher — and the probe results are unchanged, then the second
reconciliation produces zero PendingUpdates (device ids and probe-dict
keys being unique, as fetch and the dict guarantee). -/
theorem reconcile_idempotent_after_apply :
    ∀ (devices : List DeviceInfo) (pingResults : List (String × PingResult)),
      (devices.map DeviceInfo.id).Nodup → (pingResults.map Prod.fst).Nodup →
      monitor_reconcile
        (apply_updates devices (monitor_reconcile devices pingResults)) pingResults = [] := by
  intro devices prs hids hkeys
  rw [List.eq_nil_iff_forall_not_mem]
  rintro ⟨d2, pr⟩ hmem
  rw [mem_monitor_reconcile] at hmem
  obtain ⟨hd2, hprs, hcond⟩ := hmem
  obtain ⟨d, hd, hd2eq⟩ := List.mem_map.mp hd2
  rcases hfind : (monitor_reconcile devices prs).find? (fun u => u.1.id == d.id) with _ | u
  · rw [hfind] at hd2eq
    subst hd2eq
    have hin : (d, pr) ∈ monitor_reconcile devices prs :=
      (mem_monitor_reconcile devices prs d pr).mpr ⟨hd, hprs, hcond⟩
    have hnone := List.find?_eq_none.mp hfind (d, pr) hin
    simp at hnone
  · rw [hfind] at hd2eq
    simp at hd2eq
    have hu_mem := List.mem_of_find?_eq_some hfind
    have hu_pred := List.find?_some hfind
    have huid : u.1.id = d.id := by simpa using hu_pred
    obtain ⟨hu1dev, hu1prs, _⟩ :=
      (mem_monitor_reconcile devices prs u.1 u.2).mp (by simpa using hu_mem)
    have hu1d : u.1 = d := List.inj_on_of_nodup_map hids hu1dev hd huid
    rw [hu1d] at hu1prs
    subst hd2eq
    have hpair :=
      List.inj_on_of_nodup_map hkeys hu1prs hprs rfl
    have hupr : u.2 = pr := congrArg Prod.snd hpair
    exact hcond (by rw [hupr])

/-- C9 witness: the amended theorem at a one-device, one-probe cycle. -/
theorem reconcile_idempotent_after_apply_witness :
    (([devU] : List DeviceInfo).map DeviceInfo.id).Nodup ∧
    (([("10.0.0.3", prU)].map Prod.fst).Nodup) ∧
    monitor_reconcile (apply_updates [devU] (monitor_reconcile [devU] [("10.0.0.3", prU)]))
      [("10.0.0.3", prU)] = [] :=
  ⟨by decide, by decide,
    reconcile_idempotent_after_apply [devU] [("10.0.0.3", prU)] (by decide) (by decide)⟩

/-- C5: the fetch loop starts at offset 0, steps the offset by the page
size, stops requesting exactly when a page comes back shorter than the
page size, and on any request failure (non-success status or raised
exception) aborts immediately, returning the records accumulated from
the earlier pages. -/
theorem fetch_pagination :
    ∀ (resp : Nat → FetchResp) (fuel offset : Nat) (acc : List DeviceInfo),
      fetch_all_devices resp fuel = fetchLoop resp fuel 0 [] ∧
      (resp offset = FetchResp.err → fetchLoop resp (fuel + 1) offset acc = acc) ∧
      (∀ page, resp offset = FetchResp.ok page → page.length < pageLimit →
        fetchLoop resp (fuel + 1) offset acc = acc ++ page.filterMap parseDevice) ∧
      (∀ page, resp offset = FetchResp.ok page → ¬page.length < pageLimit →
        fetchLoop resp (fuel + 1) offset acc =
          fetchLoop resp fuel (offset + pageLimit) (acc ++ page.filterMap parseDevice)) := by
  intro resp fuel offset acc
  refine ⟨rfl, ?_, ?_, ?_⟩
  · intro herr
    simp [fetchLoop, herr]
  · intro page hok hshort
    simp [fetchLoop, hok, hshort]
  · intro page hok hlong
    simp [fetchLoop, hok, hlong]

/-- C5 witness: a server with a full page at offset 0, a short page at
offset 1000 and an error beyond — the loop continues past the full page,
stops at the short page, and an error step returns the accumulated
records. -/
theorem fetch_pagination_witness :
    fetchLoop wResp 1 2000 [devAcc] = [devAcc] ∧
    fetchLoop wResp 1 pageLimit [] = [] ++ [rawLast].filterMap parseDevice ∧
    fetchLoop wResp 2 0 [] =
      fetchLoop wResp 1 (0 + pageLimit)
        ([] ++ (List.replicate pageLimit rawFull).filterMap parseDevice) :=
  ⟨(fetch_pagination wResp 0 2000 [devAcc]).2.1 rfl,
    (fetch_pagination wResp 0 pageLimit []).2.2.1 [rawLast] rfl (by decide),
    (fetch_pagination wResp 1 0 []).2.2.2 (List.replicate pageLimit rawFull) rfl
      (by rw [List.length_replicate]; exact lt_irrefl _)⟩

end DeviceMonitor
